import Mathlib

/-!
Verification of the isle-evrima-rcon protocol/session core.

The TypeScript source is embedded shallowly:

* JS strings are modelled as Lean `String`; character-level operations
  (`split`, `trim`, `toLowerCase`, `indexOf`, `includes`, `startsWith`,
  `endsWith`) are mirrored by structurally recursive functions on
  `List Char`, giving the same results as the JS operations on the
  character sequences involved (ASCII case folding and ASCII whitespace
  suffice for every string the code compares against).
* Wire packets are byte lists (`List Nat`); the library writes packets
  with the latin1 encoding, under which a JS string character `c` with
  code below 256 becomes the single byte `c`, so a parameter string is
  carried as the list of its character codes.
* Thrown `RCONError`s become `Except RCONErrorCode` results; code that
  cannot throw keeps a plain result type.
* The `Date` timestamp of a `CommandResult` is real-time bookkeeping with
  no logical content and is omitted from the embedded record.
-/

/-- Characters removed by the trim operations used in the source
(ASCII whitespace; the inputs compared by the code are ASCII). -/
def isSpaceChar (c : Char) : Bool :=
  c == ' ' || c == '\t' || c == '\n' || c == '\r'

/-- Mirrors JS `String.prototype.trim` on the character list. -/
def trimChars (s : List Char) : List Char :=
  ((s.dropWhile isSpaceChar).reverse.dropWhile isSpaceChar).reverse

/-- Mirrors JS `String.prototype.split` against a single-character class:
splitting on every character satisfying `p`, keeping empty segments
(so the empty string splits to `[[]]`, and a trailing separator yields a
trailing empty segment), exactly as `split('\n')`, `split(',')`,
`split(/[:=]/)` and `split(/[,\n]/)` do in the source. -/
def splitChars (p : Char → Bool) : List Char → List (List Char)
  | [] => [[]]
  | c :: rest =>
    if p c then [] :: splitChars p rest
    else
      match splitChars p rest with
      | [] => [[c]]
      | t :: ts => (c :: t) :: ts

/-- Mirrors JS `String.prototype.includes`: `needle` occurs as a
contiguous substring of the haystack. -/
def containsSub (needle : List Char) : List Char → Bool
  | [] => needle.isEmpty
  | c :: rest => needle.isPrefixOf (c :: rest) || containsSub needle rest

/-- Mirrors `line.indexOf(':')` followed by the two `substring` calls in
`parsePlayerDataResponse`: `none` when the line has no colon, otherwise
the text before the first colon and the text after it. -/
def splitAtFirstColon : List Char → Option (List Char × List Char)
  | [] => none
  | c :: rest =>
    if c == ':' then some ([], rest)
    else (splitAtFirstColon rest).map (fun p => (c :: p.1, p.2))

/-- Mirrors JS `substring(0, length - n)`, removing the last `n`
characters. -/
def dropRightChars (n : Nat) (s : List Char) : List Char :=
  s.take (s.length - n)

/- Protocol constants (src/protocol.ts, `Protocol`). The latin1
`ENCODING` constant is realised by the byte-list packet model. -/
namespace Protocol

/-- Command packet prefix byte. -/
def COMMAND_PREFIX : Nat := 0x02

/-- Auth packet prefix byte. -/
def AUTH_PREFIX : Nat := 0x01

/-- Packet terminator byte. -/
def TERMINATOR : Nat := 0x00

/-- Success marker for authentication. -/
def AUTH_SUCCESS : String := "Password Accepted"

end Protocol

/-- Error codes for RCON operations (src/types.ts `RCONErrorCode`). -/
inductive RCONErrorCode where
  | CONNECTION_FAILED
  | AUTH_FAILED
  | TIMEOUT
  | SOCKET_ERROR
  | INVALID_COMMAND
  | NOT_CONNECTED
  | PARSE_ERROR
deriving DecidableEq

/-- Command definition with metadata (src/types.ts `CommandDefinition`). -/
structure CommandDefinition where
  code : Nat
  description : String
  requiresParams : Bool
  «example» : Option String
deriving DecidableEq

/-- Registry of all available RCON commands (src/commands.ts
`CommandRegistry`), in source order. A JS `Map` built from a literal
entry array with distinct keys behaves as this association list. -/
def CommandRegistry : List (String × CommandDefinition) := [
  ("auth", { code := 0x01, description := "Authenticate with the RCON server",
             requiresParams := true, «example» := some "password" }),
  ("command", { code := 0x02, description := "Execute a raw command",
                requiresParams := true, «example» := some "any raw command" }),
  ("announce", { code := 0x10, description := "Send a server-wide announcement to all players",
                 requiresParams := true, «example» := some "Server will restart in 5 minutes" }),
  ("dm", { code := 0x11, description := "Send a direct message to a specific player",
           requiresParams := true, «example» := some "steamId,Your message here" }),
  ("srv:details", { code := 0x12, description := "Retrieve server information and configuration",
                    requiresParams := false, «example» := none }),
  ("entities:wipe:corpses", { code := 0x13, description := "Remove all dead bodies/corpses from the map",
                              requiresParams := false, «example» := none }),
  ("getplayables", { code := 0x14, description := "Get list of available playable dinosaurs/characters",
                     requiresParams := false, «example» := none }),
  ("updateplayables", { code := 0x15, description := "Update the playable characters/dinosaurs configuration",
                        requiresParams := true, «example» := some "dino1:enabled,dino2:disabled" }),
  ("migrations:toggle", { code := 0x19, description := "Toggle dinosaur migrations on/off",
                          requiresParams := true, «example» := some "1 or 0" }),
  ("ban", { code := 0x20, description := "Ban a player from the server",
            requiresParams := true, «example» := some "steamId,reason" }),
  ("growth:multiplier:toggle", { code := 0x21, description := "Toggle growth multiplier feature on/off",
                                 requiresParams := true, «example» := some "1 or 0" }),
  ("growth:multiplier:set", { code := 0x22, description := "Set the growth multiplier value",
                              requiresParams := true, «example» := some "1.5" }),
  ("netupdate:toggle", { code := 0x23, description := "Toggle network update distance checks",
                         requiresParams := true, «example» := some "1 or 0" }),
  ("kick", { code := 0x30, description := "Kick a player from the server",
             requiresParams := true, «example» := some "steamId,reason" }),
  ("players", { code := 0x40, description := "List all players on server (returns SteamId, Name, EOSId)",
                requiresParams := false, «example» := none }),
  ("save", { code := 0x50, description := "Trigger a server save operation",
             requiresParams := false, «example» := none }),
  ("pause", { code := 0x60, description := "Pause or unpause the server",
              requiresParams := true, «example» := some "1 or 0" }),
  ("custom", { code := 0x70, description := "Execute a custom command (may not be functional)",
               requiresParams := true, «example» := none }),
  ("playData", { code := 0x77, description := "Get detailed player data (mutations, prime status). Response has PlayerData/PlayerDataEnd markers.",
                 requiresParams := false, «example» := none }),
  ("whitelist:toggle", { code := 0x81, description := "Enable or disable the server whitelist",
                         requiresParams := true, «example» := some "1 or 0" }),
  ("whitelist:add", { code := 0x82, description := "Add a player to the whitelist by Steam ID",
                      requiresParams := true, «example» := some "steamId" }),
  ("whitelist:remove", { code := 0x83, description := "Remove a player from the whitelist by Steam ID",
                         requiresParams := true, «example» := some "steamId" }),
  ("globalchat:toggle", { code := 0x84, description := "Enable or disable global chat for all players",
                          requiresParams := true, «example» := some "1 or 0" }),
  ("humans:toggle", { code := 0x86, description := "Enable or disable human characters",
                      requiresParams := true, «example» := some "1 or 0" }),
  ("ai:toggle", { code := 0x90, description := "Enable or disable AI spawning on the server",
                  requiresParams := true, «example» := some "1 or 0" }),
  ("ai:classes:disable", { code := 0x91, description := "Disable specific AI dinosaur classes",
                           requiresParams := true, «example» := some "raptor,trex,stego" }),
  ("ai:density", { code := 0x92, description := "Set the AI spawn density (0.0 to 1.0)",
                   requiresParams := true, «example» := some "0.5" }),
  ("queue:status", { code := 0x93, description := "Get the current server queue status",
                     requiresParams := false, «example» := none }),
  ("ai:learning:toggle", { code := 0x94, description := "Toggle AI learning behavior on/off (may only work on official servers)",
                           requiresParams := true, «example» := some "1 or 0" })]

/-- Byte code for a command (src/commands.ts `getCommandCode`):
`CommandRegistry.get(command)?.code`. -/
def getCommandCode (command : String) : Option Nat :=
  (CommandRegistry.lookup command).map (fun d => d.code)

/-- Registry membership test (src/commands.ts `isValidCommand`):
`CommandRegistry.has(command)`. -/
def isValidCommand (command : String) : Bool :=
  (CommandRegistry.lookup command).isSome

/-- Latin1 bytes of a JS string whose characters lie below 256: each
character contributes its code as one byte. -/
def strBytes (s : String) : List Nat :=
  s.data.map Char.toNat

/-- Command packet builder (src/protocol.ts `createCommandPacket`):
prefix byte, opcode byte, parameter bytes (empty when `params` is
omitted), terminator byte; fails with `INVALID_COMMAND` when the
command has no registry code. -/
def createCommandPacket (command : String) (params : Option (List Nat)) :
    Except RCONErrorCode (List Nat) :=
  match getCommandCode command with
  | none => Except.error RCONErrorCode.INVALID_COMMAND
  | some code =>
    let paramString := params.getD []
    Except.ok (Protocol.COMMAND_PREFIX :: code :: (paramString ++ [Protocol.TERMINATOR]))

/-- Modelled from the spec: packet decoding is implicit in the code
(the spec property table applies `decode` to a built packet), so the
decoder follows the spec wording of the framing — first byte the
command prefix, second byte the opcode, final byte the terminator,
the bytes in between the parameter string. -/
def decodePacket (packet : List Nat) : Option (Nat × List Nat) :=
  match packet with
  | ty :: code :: rest =>
    if ty == Protocol.COMMAND_PREFIX && rest.getLast? == some Protocol.TERMINATOR then
      some (code, rest.dropLast)
    else none
  | _ => none

/-- Backoff delay of reconnection attempt `reconnectAttempts`
(src/client.ts `attemptReconnect`):
`Math.min(reconnectDelay * Math.pow(2, reconnectAttempts - 1), 30000)`.
Attempt counters start at 1 (the code increments before computing) and
`reconnectDelay` is a validated integer, so the float arithmetic is
exact and `Nat` models it faithfully. -/
def attemptReconnectDelay (reconnectDelay : Nat) (reconnectAttempts : Nat) : Nat :=
  min (reconnectDelay * 2 ^ (reconnectAttempts - 1)) 30000

/-- Authentication reply check (src/client.ts `authenticate`): given the
reply string obtained over the socket, the handshake succeeds exactly
when `response.includes(Protocol.AUTH_SUCCESS)`, and otherwise throws
`AUTH_FAILED`. The socket round-trip itself is I/O and is abstracted to
the reply value. -/
def authenticateCheck (response : String) : Except RCONErrorCode Unit :=
  if containsSub Protocol.AUTH_SUCCESS.data response.data then Except.ok ()
  else Except.error RCONErrorCode.AUTH_FAILED

/-- Result of a command execution (src/types.ts `CommandResult`),
without the real-time `timestamp` field. -/
structure CommandResult where
  success : Bool
  data : String
  raw : String
  command : String
deriving DecidableEq

/-- Response formatter (src/client.ts `formatResponse`). -/
def formatResponse (command : String) (params : Option String) (response : String) : String :=
  if command = "announce" ∨ command = "ban" ∨ command = "kick" then
    "command:" ++ response ++ ":" ++ (params.getD "")
  else if command = "players" ∨ command = "dm" then
    "[" ++ command ++ "]:" ++ response
  else response

/-- Body of src/client.ts `sendCommand` for a connected session
(`ensureConnected` has succeeded) whose socket round-trip succeeds,
with the server abstracted as a `respond` function from the sent packet
to the reply text: an unregistered command short-circuits to a
`success=false` result before any packet is built; otherwise the packet
is built (a thrown `RCONError` would be rethrown, hence `Except.error`),
sent, and the reply is wrapped via `createResult(command, true,
response, formatResponse(...))`. -/
def sendCommandConnected (command : String) (params : Option String)
    (respond : List Nat → String) : Except RCONErrorCode CommandResult :=
  if isValidCommand command = false then
    Except.ok { success := false, data := "Unknown command: " ++ command,
                raw := "", command := command }
  else
    match createCommandPacket command (params.map strBytes) with
    | Except.error e => Except.error e
    | Except.ok packet =>
      let response := respond packet
      Except.ok { success := true, data := formatResponse command params response,
                  raw := response, command := command }

/-- Player entry from the players command (src/protocol.ts
`ParsedPlayer`). -/
structure ParsedPlayer where
  steamId : String
  name : String
  eosId : Option String
  raw : String
deriving DecidableEq

/-- Non-blank lines of a players response (src/protocol.ts
`parsePlayersResponse`): `response.split('\n').filter((line) =>
line.trim())`. -/
def playersLines (response : String) : List (List Char) :=
  (splitChars (· == '\n') response.data).filter (fun line => !(trimChars line).isEmpty)

/-- Index of the first data line (src/protocol.ts
`parsePlayersResponse`): 1 when the first non-blank line lower-cases to
the `PlayerList` header, else 0. -/
def playersDataStart (response : String) : Nat :=
  if ((playersLines response).headD []).map Char.toLower = "playerlist".data then 1 else 0

/-- Tokens of one data line (src/protocol.ts `parsePlayersResponse`):
`line.split(',').map((s) => s.trim()).filter(Boolean)`. -/
def tokensOf (line : List Char) : List (List Char) :=
  ((splitChars (· == ',') line).map trimChars).filter (fun t => !t.isEmpty)

/-- Steam-id tokens: the data line at `dataStartIndex` (defaulting to
the empty string when absent). -/
def playersSteamIds (response : String) : List (List Char) :=
  tokensOf (((playersLines response)[playersDataStart response]?).getD [])

/-- Name tokens: the data line at `dataStartIndex + 1`. -/
def playersNames (response : String) : List (List Char) :=
  tokensOf (((playersLines response)[playersDataStart response + 1]?).getD [])

/-- EOS-id tokens: the data line at `dataStartIndex + 2`. -/
def playersEosIds (response : String) : List (List Char) :=
  tokensOf (((playersLines response)[playersDataStart response + 2]?).getD [])

/-- Record built by iteration `i` of the zip loop in
`parsePlayersResponse`: `names[i] ?? 'Unknown'` for the name, the
non-empty EOS candidate or absence for `eosId`, and the rebuilt `raw`
line. -/
def playersRecordValue (response : String) (i : Nat) : ParsedPlayer :=
  let steamId := ((playersSteamIds response)[i]?).getD []
  let name := ((playersNames response)[i]?).getD "Unknown".data
  let eosId : Option (List Char) :=
    match (playersEosIds response)[i]? with
    | some s => if s.isEmpty then none else some s
    | none => none
  { steamId := String.mk steamId
    name := String.mk name
    eosId := eosId.map String.mk
    raw := String.mk (steamId ++ ',' :: name ++
      (match eosId with | some e => ',' :: e | none => [])) }

/-- Loop body of `parsePlayersResponse` at index `i`: the
`if (!steamId) continue` guard followed by the record construction. -/
def playersRecordAt (response : String) (i : Nat) : Option ParsedPlayer :=
  let steamId := ((playersSteamIds response)[i]?).getD []
  if steamId.isEmpty then none else some (playersRecordValue response i)

/-- Columnar player-list parser (src/protocol.ts
`parsePlayersResponse`): empty line list short-circuits to `[]`,
otherwise the steam-id column drives the record count. -/
def parsePlayersResponse (response : String) : List ParsedPlayer :=
  if (playersLines response).isEmpty then []
  else (List.range (playersSteamIds response).length).filterMap (playersRecordAt response)

/-- Parsed player data from the playData command (src/protocol.ts
`ParsedPlayerData`). -/
structure ParsedPlayerData where
  steamId : Option String
  name : Option String
  eosId : Option String
  character : Option String
  isAlive : Option Bool
  mutations : Option (List String)
  isPrime : Option Bool
  raw : String
deriving DecidableEq

/-- Loop body of `parsePlayerDataResponse` for one line: skip lines
without a colon; otherwise split at the first colon, lower-case and trim
the key, trim the value, and assign the matching field (booleans via the
`'1'` / case-insensitive `'true'` test, mutations as a trimmed
comma-separated list). -/
def playerDataStep (result : ParsedPlayerData) (line : List Char) : ParsedPlayerData :=
  match splitAtFirstColon line with
  | none => result
  | some (before, after) =>
    let key := String.mk ((trimChars before).map Char.toLower)
    let v := trimChars after
    let value := String.mk v
    if key = "steamid" then { result with steamId := some value }
    else if key = "name" then { result with name := some value }
    else if key = "eosid" then { result with eosId := some value }
    else if key = "character" ∨ key = "dino" ∨ key = "dinosaur" then
      { result with character := some value }
    else if key = "alive" ∨ key = "isalive" then
      { result with isAlive := some (v == ['1'] || v.map Char.toLower == "true".data) }
    else if key = "mutations" then
      let ms := (((splitChars (· == ',') v).map trimChars).filter (fun m => !m.isEmpty)).map String.mk
      { result with mutations := some ms }
    else if key = "prime" ∨ key = "isprime" then
      { result with isPrime := some (v == ['1'] || v.map Char.toLower == "true".data) }
    else result

/-- Detailed player-data parser (src/protocol.ts
`parsePlayerDataResponse`): strip the `PlayerData` /
`PlayerDataEnd` markers when present, split into non-blank lines, and
fold the key:value assignments over a result seeded with the raw
response. -/
def parsePlayerDataResponse (response : String) : ParsedPlayerData :=
  let content := response.data
  let content :=
    if "PlayerData\n".data.isPrefixOf content then content.drop "PlayerData\n".data.length
    else content
  let content :=
    if "PlayerDataEnd\n".data.isSuffixOf content then
      dropRightChars "PlayerDataEnd\n".data.length content
    else if "PlayerDataEnd".data.isSuffixOf content then
      dropRightChars "PlayerDataEnd".data.length content
    else content
  let lines := (splitChars (· == '\n') content).filter (fun line => !(trimChars line).isEmpty)
  lines.foldl playerDataStep
    { steamId := none, name := none, eosId := none, character := none,
      isAlive := none, mutations := none, isPrime := none, raw := response }

/-- JS object assignment `details[k] = v` on the association-list model
of `Record<string, string>`: replace the value at an existing key in
place, else append the new entry. -/
def recordSet : List (String × String) → String → String → List (String × String)
  | [], k, v => [(k, v)]
  | (k0, v0) :: rest, k, v =>
    if k0 = k then (k, v) :: rest else (k0, v0) :: recordSet rest k v

/-- Loop body of `parseServerDetailsResponse` for one pair segment:
split on every colon or equals sign, and when both `parts[0]` and
`parts[1]` are non-empty assign
`details[key.trim().toLowerCase()] = value.trim()`. -/
def detailsStep (details : List (String × String)) (pair : List Char) : List (String × String) :=
  let parts := splitChars (fun c => c == ':' || c == '=') pair
  let key := (parts[0]?).getD []
  let value := (parts[1]?).getD []
  if key.isEmpty || value.isEmpty then details
  else recordSet details (String.mk ((trimChars key).map Char.toLower)) (String.mk (trimChars value))

/-- Server-details parser (src/protocol.ts `parseServerDetailsResponse`):
split the response on commas and newlines, fold the key/value
assignments, then store the raw response under `'raw'`. -/
def parseServerDetailsResponse (response : String) : List (String × String) :=
  let pairs := splitChars (fun c => c == ',' || c == '\n') response.data
  recordSet (pairs.foldl detailsStep []) "raw" response

/-! Helper lemmas. -/

/-- Lookup success in an association list implies membership of the
key/value pair. -/
theorem lookup_mem_assoc {l : List (String × CommandDefinition)} {c : String}
    {d : CommandDefinition} (h : l.lookup c = some d) : (c, d) ∈ l := by
  induction l with
  | nil => simp [List.lookup] at h
  | cons e rest ih =>
    obtain ⟨k, v⟩ := e
    rw [List.lookup] at h
    cases hck : c == k
    · rw [hck] at h
      exact List.mem_cons_of_mem _ (ih h)
    · rw [hck] at h
      injection h with h
      subst h
      exact (eq_of_beq hck) ▸ List.mem_cons_self _ _

/-- A command outside the registry has no opcode: `Map.has` false means
`Map.get` is undefined. -/
theorem getCommandCode_eq_none (c : String) (h : isValidCommand c = false) :
    getCommandCode c = none := by
  unfold isValidCommand at h
  unfold getCommandCode
  cases hl : CommandRegistry.lookup c with
  | none => rfl
  | some d => rw [hl] at h; simp at h

/-- A registry opcode comes from a registered entry. -/
theorem getCommandCode_mem (c : String) (k : Nat) (h : getCommandCode c = some k) :
    ∃ d, (c, d) ∈ CommandRegistry ∧ d.code = k := by
  unfold getCommandCode at h
  cases hl : CommandRegistry.lookup c with
  | none => rw [hl] at h; simp at h
  | some d => rw [hl] at h; simp at h; exact ⟨d, lookup_mem_assoc hl, h⟩

/-- Characterisation of the list-level `isPrefixOf` test. -/
theorem isPrefixOf_exists_append (a : List Char) : ∀ b : List Char,
    a.isPrefixOf b = true ↔ ∃ t, a ++ t = b := by
  induction a with
  | nil => intro b; simp [List.isPrefixOf]
  | cons x xs ih =>
    intro b
    cases b with
    | nil => simp [List.isPrefixOf]
    | cons y ys => simp [List.isPrefixOf, ih ys, List.cons_eq_cons, exists_and_left]

/-- Characterisation of the substring test `containsSub` as the
existence of a decomposition around the needle. -/
theorem containsSub_iff_exists (needle : List Char) : ∀ hay : List Char,
    containsSub needle hay = true ↔ ∃ pre post, pre ++ needle ++ post = hay := by
  intro hay
  induction hay with
  | nil =>
    simp only [containsSub, List.isEmpty_iff]
    constructor
    · intro h; exact ⟨[], [], by simp [h]⟩
    · rintro ⟨pre, post, hp⟩
      simp [List.append_eq_nil] at hp
      exact hp.2.1
  | cons c rest ih =>
    simp only [containsSub, Bool.or_eq_true, isPrefixOf_exists_append, ih]
    constructor
    · rintro (⟨t, ht⟩ | ⟨pre, post, hp⟩)
      · exact ⟨[], t, by simp [ht]⟩
      · exact ⟨c :: pre, post, by simp [hp]⟩
    · rintro ⟨pre, post, hp⟩
      cases pre with
      | nil => exact Or.inl ⟨post, by simpa using hp⟩
      | cons p pre2 =>
        rw [List.cons_append] at hp
        injection hp with h1 h2
        exact Or.inr ⟨pre2, post, h2⟩

/-! Claim theorems. -/

/-- C1: for every registered command and every parameter byte string
free of the terminator byte, the packet built by `createCommandPacket`
is exactly prefix byte `0x02`, the registry opcode, the parameter bytes
(empty when `params` is omitted), and a final `0x00`; its first byte is
`0x02`, its second byte the opcode, its last byte `0x00`, the bytes
strictly between the second and final byte are exactly the parameters,
and decoding the packet recovers the opcode and parameter string. -/
theorem createCommandPacket_framing (c : String) (code : Nat) (params : List Nat)
    (hc : getCommandCode c = some code)
    (_hp : ∀ b ∈ params, b ≠ Protocol.TERMINATOR) :
    createCommandPacket c (some params) =
      Except.ok (Protocol.COMMAND_PREFIX :: code :: (params ++ [Protocol.TERMINATOR])) ∧
    createCommandPacket c none =
      Except.ok (Protocol.COMMAND_PREFIX :: code :: [Protocol.TERMINATOR]) ∧
    (Protocol.COMMAND_PREFIX :: code :: (params ++ [Protocol.TERMINATOR])).head? = some 0x02 ∧
    (Protocol.COMMAND_PREFIX :: code :: (params ++ [Protocol.TERMINATOR]))[1]? = some code ∧
    (Protocol.COMMAND_PREFIX :: code :: (params ++ [Protocol.TERMINATOR])).getLast? = some 0x00 ∧
    ((Protocol.COMMAND_PREFIX :: code :: (params ++ [Protocol.TERMINATOR])).drop 2).dropLast
      = params ∧
    decodePacket (Protocol.COMMAND_PREFIX :: code :: (params ++ [Protocol.TERMINATOR]))
      = some (code, params) := by
  refine ⟨by simp [createCommandPacket, hc], by simp [createCommandPacket, hc], rfl, by simp, ?_, ?_, ?_⟩
  · rw [show Protocol.COMMAND_PREFIX :: code :: (params ++ [Protocol.TERMINATOR])
        = (Protocol.COMMAND_PREFIX :: code :: params) ++ [Protocol.TERMINATOR] by simp]
    exact List.getLast?_concat _
  · show (params ++ [Protocol.TERMINATOR]).dropLast = params
    exact List.dropLast_concat
  · simp [decodePacket, List.getLast?_concat, List.dropLast_concat]

/-- Witness for C1 at the `announce` command with parameter bytes for
the string `hi`. -/
theorem createCommandPacket_framing_witness :
    createCommandPacket "announce" (some [104, 105]) =
      Except.ok (Protocol.COMMAND_PREFIX :: 0x10 :: ([104, 105] ++ [Protocol.TERMINATOR])) :=
  (createCommandPacket_framing "announce" 0x10 [104, 105] (by decide) (by decide)).1

/-- C2: the wait before reconnect attempt `n ≥ 1` with base delay `b` is
`min (b * 2 ^ (n - 1)) 30000` milliseconds; with base delay 1000 the
first five attempts wait 1000, 2000, 4000, 8000, 16000 ms, and attempt 6
waits the 30000 ms cap rather than 32000 ms. -/
theorem attemptReconnect_backoff :
    (∀ (b n : Nat), 1 ≤ n → attemptReconnectDelay b n = min (b * 2 ^ (n - 1)) 30000) ∧
    attemptReconnectDelay 1000 1 = 1000 ∧
    attemptReconnectDelay 1000 2 = 2000 ∧
    attemptReconnectDelay 1000 3 = 4000 ∧
    attemptReconnectDelay 1000 4 = 8000 ∧
    attemptReconnectDelay 1000 5 = 16000 ∧
    attemptReconnectDelay 1000 6 = 30000 ∧
    attemptReconnectDelay 1000 6 ≠ 32000 :=
  ⟨fun _ _ _ => rfl, by decide, by decide, by decide, by decide, by decide, by decide, by decide⟩

/-- Witness for C2 at attempt 4 with base delay 1000. -/
theorem attemptReconnect_backoff_witness :
    attemptReconnectDelay 1000 4 = min (1000 * 2 ^ (4 - 1)) 30000 :=
  attemptReconnect_backoff.1 1000 4 (by decide)

/-- C3: for an identifier outside the registry, `createCommandPacket`
fails with `INVALID_COMMAND`, while `sendCommand` on a connected session
returns (does not throw) a `CommandResult` with `success = false` and
the explanatory `Unknown command` message. -/
theorem unknown_command_behavior (c : String) (params : Option String)
    (respond : List Nat → String) (h : isValidCommand c = false) :
    createCommandPacket c (params.map strBytes) = Except.error RCONErrorCode.INVALID_COMMAND ∧
    sendCommandConnected c params respond =
      Except.ok { success := false, data := "Unknown command: " ++ c,
                  raw := "", command := c } := by
  have hc := getCommandCode_eq_none c h
  exact ⟨by simp [createCommandPacket, hc], by simp [sendCommandConnected, h]⟩

/-- Witness for C3 at the unregistered identifier `frobnicate`. -/
theorem unknown_command_behavior_witness :
    sendCommandConnected "frobnicate" none (fun _ => "") =
      Except.ok { success := false, data := "Unknown command: " ++ "frobnicate",
                  raw := "", command := "frobnicate" } :=
  (unknown_command_behavior "frobnicate" none (fun _ => "") (by decide)).2

/-- C4: the authentication step fails with `AUTH_FAILED` exactly when
the reply lacks the fixed `Password Accepted` marker substring, and
succeeds exactly when the reply contains it, regardless of any other
content of the reply. -/
theorem authenticate_marker_iff (response : String) :
    (authenticateCheck response = Except.error RCONErrorCode.AUTH_FAILED ↔
      ¬ ∃ pre post, pre ++ Protocol.AUTH_SUCCESS.data ++ post = response.data) ∧
    (authenticateCheck response = Except.ok () ↔
      ∃ pre post, pre ++ Protocol.AUTH_SUCCESS.data ++ post = response.data) := by
  unfold authenticateCheck
  rw [← containsSub_iff_exists]
  cases h : containsSub Protocol.AUTH_SUCCESS.data response.data <;> simp [h]

/-- Witness for C4: a reply containing the marker decomposes around
it. -/
theorem authenticate_marker_iff_witness :
    ∃ pre post, pre ++ Protocol.AUTH_SUCCESS.data ++ post = ("ok: Password Accepted.").data :=
  (authenticate_marker_iff "ok: Password Accepted.").2.mp rfl

/-- C5: the registry maps distinct registered identifiers to distinct
opcodes. -/
theorem registry_opcodes_injective (c1 c2 : String) (k1 k2 : Nat)
    (hne : c1 ≠ c2) (h1 : getCommandCode c1 = some k1) (h2 : getCommandCode c2 = some k2) :
    k1 ≠ k2 := by
  obtain ⟨d1, hm1, hc1⟩ := getCommandCode_mem c1 k1 h1
  obtain ⟨d2, hm2, hc2⟩ := getCommandCode_mem c2 k2 h2
  intro hk
  have hnodup : (CommandRegistry.map (fun e => e.2.code)).Nodup := by decide
  have heq := List.inj_on_of_nodup_map hnodup hm1 hm2 (by rw [hc1, hc2]; exact hk)
  exact hne (congrArg Prod.fst heq)

/-- Witness for C5 at the `auth` and `command` entries. -/
theorem registry_opcodes_injective_witness : (0x01 : Nat) ≠ 0x02 :=
  registry_opcodes_injective "auth" "command" 0x01 0x02 (by decide) (by decide) (by decide)

/-- C6: the registry contains every command of the spec opcode table and
assigns it exactly the tabulated opcode. -/
theorem registry_opcode_table :
    getCommandCode "auth" = some 0x01 ∧
    getCommandCode "command" = some 0x02 ∧
    getCommandCode "announce" = some 0x10 ∧
    getCommandCode "dm" = some 0x11 ∧
    getCommandCode "srv:details" = some 0x12 ∧
    getCommandCode "entities:wipe:corpses" = some 0x13 ∧
    getCommandCode "getplayables" = some 0x14 ∧
    getCommandCode "updateplayables" = some 0x15 ∧
    getCommandCode "migrations:toggle" = some 0x19 ∧
    getCommandCode "ban" = some 0x20 ∧
    getCommandCode "growth:multiplier:toggle" = some 0x21 ∧
    getCommandCode "growth:multiplier:set" = some 0x22 ∧
    getCommandCode "netupdate:toggle" = some 0x23 ∧
    getCommandCode "kick" = some 0x30 ∧
    getCommandCode "players" = some 0x40 ∧
    getCommandCode "save" = some 0x50 ∧
    getCommandCode "pause" = some 0x60 ∧
    getCommandCode "custom" = some 0x70 ∧
    getCommandCode "playData" = some 0x77 ∧
    getCommandCode "whitelist:toggle" = some 0x81 ∧
    getCommandCode "whitelist:add" = some 0x82 ∧
    getCommandCode "whitelist:remove" = some 0x83 ∧
    getCommandCode "globalchat:toggle" = some 0x84 ∧
    getCommandCode "humans:toggle" = some 0x86 ∧
    getCommandCode "ai:toggle" = some 0x90 ∧
    getCommandCode "ai:classes:disable" = some 0x91 ∧
    getCommandCode "ai:density" = some 0x92 ∧
    getCommandCode "queue:status" = some 0x93 ∧
    getCommandCode "ai:learning:toggle" = some 0x94 := by decide

/-- Pointwise-`some` `filterMap` is a `map`. -/
theorem filterMap_eq_map_of_some {α β : Type} {l : List α} {f : α → Option β} {g : α → β}
    (h : ∀ a ∈ l, f a = some (g a)) : l.filterMap f = l.map g := by
  induction l with
  | nil => rfl
  | cons x xs ih =>
    rw [List.filterMap_cons, h x (List.mem_cons_self x xs), List.map_cons,
        ih (fun a ha => h a (List.mem_cons_of_mem x ha))]

/-- Tokens of a data line are non-empty: the token list is built by a
`filter (Boolean)` step. -/
theorem token_ne_nil {line t : List Char} (h : t ∈ tokensOf line) : t ≠ [] := by
  intro hnil
  subst hnil
  have := List.of_mem_filter h
  simp at this

/-- Members of the steam-id column are non-empty tokens. -/
theorem mem_playersSteamIds_ne_nil {response : String} {t : List Char}
    (h : t ∈ playersSteamIds response) : t ≠ [] := by
  unfold playersSteamIds at h
  exact token_ne_nil h

/-- Members of the name column are non-empty tokens. -/
theorem mem_playersNames_ne_nil {response : String} {t : List Char}
    (h : t ∈ playersNames response) : t ≠ [] := by
  unfold playersNames at h
  exact token_ne_nil h

/-- Members of the EOS-id column are non-empty tokens. -/
theorem mem_playersEosIds_ne_nil {response : String} {t : List Char}
    (h : t ∈ playersEosIds response) : t ≠ [] := by
  unfold playersEosIds at h
  exact token_ne_nil h

/-- Without non-blank lines there are no steam-id tokens. -/
theorem playersSteamIds_empty_of_no_lines (response : String)
    (h : (playersLines response).isEmpty = true) : playersSteamIds response = [] := by
  unfold playersSteamIds
  rw [List.isEmpty_iff.mp h]
  rfl

/-- A non-empty string is distinct from the empty string. -/
theorem stringMk_ne_empty {l : List Char} (h : l ≠ []) : String.mk l ≠ "" := by
  intro he
  exact h (by simpa using congrArg String.data he)

/-- The `if (!steamId) continue` guard never fires on an in-range index:
the steam-id column holds only non-empty tokens. -/
theorem playersRecordAt_eq_some (response : String) (i : Nat)
    (h : i < (playersSteamIds response).length) :
    playersRecordAt response i = some (playersRecordValue response i) := by
  have hmem : (playersSteamIds response)[i] ∈ playersSteamIds response := List.getElem_mem h
  have hne := mem_playersSteamIds_ne_nil hmem
  have hemp : ((playersSteamIds response)[i]).isEmpty = false := by
    cases hl : ((playersSteamIds response)[i]).isEmpty
    · rfl
    · exact absurd (List.isEmpty_iff.mp hl) hne
  unfold playersRecordAt
  rw [List.getElem?_eq_getElem h]
  simp [hemp]

/-- The zip loop of `parsePlayersResponse` produces exactly one record
per steam-id token. -/
theorem parsePlayersResponse_eq_map (response : String) :
    parsePlayersResponse response =
      (List.range (playersSteamIds response).length).map (playersRecordValue response) := by
  unfold parsePlayersResponse
  cases hl : (playersLines response).isEmpty
  · simp only [hl, Bool.false_eq_true, if_false]
    exact filterMap_eq_map_of_some
      (fun i hi => playersRecordAt_eq_some response i (List.mem_range.mp hi))
  · rw [playersSteamIds_empty_of_no_lines response hl]
    simp [hl]

/-- Positional access into the parsed player list. -/
theorem parsePlayersResponse_getElem? (response : String) (i : Nat)
    (h : i < (playersSteamIds response).length) :
    (parsePlayersResponse response)[i]? = some (playersRecordValue response i) := by
  rw [parsePlayersResponse_eq_map, List.getElem?_map, List.getElem?_range h]
  rfl

/-- Every parsed player is the record of some in-range column index. -/
theorem mem_parsePlayersResponse {response : String} {p : ParsedPlayer}
    (h : p ∈ parsePlayersResponse response) :
    ∃ i, i < (playersSteamIds response).length ∧ p = playersRecordValue response i := by
  rw [parsePlayersResponse_eq_map] at h
  obtain ⟨i, hi, hp⟩ := List.mem_map.mp h
  exact ⟨i, List.mem_range.mp hi, hp.symm⟩

/-- Field shape of a zip-loop record at an in-range index. -/
theorem playersRecordValue_fields (response : String) (i : Nat)
    (h : i < (playersSteamIds response).length) :
    (playersRecordValue response i).steamId ≠ "" ∧
    (playersRecordValue response i).name ≠ "" ∧
    ∀ e, (playersRecordValue response i).eosId = some e → e ≠ "" := by
  have hs : (playersSteamIds response)[i] ∈ playersSteamIds response := List.getElem_mem h
  refine ⟨?_, ?_, ?_⟩
  · unfold playersRecordValue
    rw [List.getElem?_eq_getElem h]
    exact stringMk_ne_empty (mem_playersSteamIds_ne_nil hs)
  · unfold playersRecordValue
    cases hn : (playersNames response)[i]? with
    | none => exact stringMk_ne_empty (by decide)
    | some t => exact stringMk_ne_empty (mem_playersNames_ne_nil (List.getElem?_mem hn))
  · unfold playersRecordValue
    cases he : (playersEosIds response)[i]? with
    | none => intro e h'; exact Option.noConfusion h'
    | some s =>
      have hne := mem_playersEosIds_ne_nil (List.getElem?_mem he)
      have hemp : s.isEmpty = false := by
        cases hl : s.isEmpty
        · rfl
        · exact absurd (List.isEmpty_iff.mp hl) hne
      intro e h'
      simp only [hemp, Bool.false_eq_true, if_false, Option.map_some'] at h'
      injection h' with h2
      rw [← h2]
      exact stringMk_ne_empty hne

/-- C7: the columnar example input yields exactly the two claimed
records, and when the EOS-id data line is missing every returned record
lacks its `eosId` field (no error occurs: the parser is total). -/
theorem parsePlayers_columnar :
    parsePlayersResponse "PlayerList\n111,222,\nAlice,Bob,\nE1,E2," =
      [{ steamId := "111", name := "Alice", eosId := some "E1", raw := "111,Alice,E1" },
       { steamId := "222", name := "Bob", eosId := some "E2", raw := "222,Bob,E2" }] ∧
    (∀ response : String,
      (playersLines response).length ≤ playersDataStart response + 2 →
      ∀ p ∈ parsePlayersResponse response, p.eosId = none) := by
  refine ⟨by decide, ?_⟩
  intro response h p hp
  obtain ⟨i, hi, rfl⟩ := mem_parsePlayersResponse hp
  have heos : playersEosIds response = [] := by
    unfold playersEosIds
    rw [List.getElem?_eq_none h]
    rfl
  unfold playersRecordValue
  rw [heos]
  rfl

/-- Witness for C7: a two-line input (missing EOS column) yields a
record without `eosId`. -/
theorem parsePlayers_columnar_witness :
    ({ steamId := "111", name := "Alice", eosId := none, raw := "111,Alice" } : ParsedPlayer).eosId
      = none :=
  parsePlayers_columnar.2 "PlayerList\n111,222,\nAlice,Bob," (by decide)
    { steamId := "111", name := "Alice", eosId := none, raw := "111,Alice" } (by decide)

/-- C10: when the names line contributes fewer tokens than the steam-id
line, each record at an index past the name column gets the literal
name `Unknown`; and every record name is either a name-column token or
`Unknown` (the `name` field has non-optional type `String` in the
source, so it is never absent — only `eosId` is optional). -/
theorem players_missing_name_token_unknown :
    (∀ (response : String) (i : Nat),
      (playersNames response).length ≤ i → i < (playersSteamIds response).length →
      (parsePlayersResponse response)[i]? = some (playersRecordValue response i) ∧
      (playersRecordValue response i).name = "Unknown") ∧
    (∀ response : String, ∀ p ∈ parsePlayersResponse response,
      p.name = "Unknown" ∨ ∃ t ∈ playersNames response, p.name = String.mk t) := by
  constructor
  · intro response i hn hs
    refine ⟨parsePlayersResponse_getElem? response i hs, ?_⟩
    unfold playersRecordValue
    rw [List.getElem?_eq_none hn]
    rfl
  · intro response p hp
    obtain ⟨i, hi, rfl⟩ := mem_parsePlayersResponse hp
    unfold playersRecordValue
    cases hn : (playersNames response)[i]? with
    | none => left; rfl
    | some t => right; exact ⟨t, List.getElem?_mem hn, rfl⟩

/-- Witness for C10: two steam-ids against one name. -/
theorem players_missing_name_token_unknown_witness :
    (playersRecordValue "111,222,\nAlice," 1).name = "Unknown" :=
  (players_missing_name_token_unknown.1 "111,222,\nAlice," 1 (by decide) (by decide)).2

/-- One parsing step of `parsePlayerDataResponse` never touches the raw
field: every branch is a single-field record update. -/
theorem playerDataStep_raw (r : ParsedPlayerData) (line : List Char) :
    (playerDataStep r line).raw = r.raw := by
  unfold playerDataStep
  split
  · rfl
  · dsimp only
    repeat' split
    all_goals rfl

/-- The fold of `parsePlayerDataResponse` keeps the seeded raw field. -/
theorem foldl_playerDataStep_raw (lines : List (List Char)) :
    ∀ r : ParsedPlayerData, (lines.foldl playerDataStep r).raw = r.raw := by
  induction lines with
  | nil => intro r; rfl
  | cons l ls ih => intro r; rw [List.foldl_cons, ih, playerDataStep_raw]

/-- The player-data parser always returns the input verbatim in `raw`. -/
theorem parsePlayerDataResponse_raw (response : String) :
    (parsePlayerDataResponse response).raw = response := by
  simp only [parsePlayerDataResponse]
  rw [foldl_playerDataStep_raw]

/-- After a `recordSet` assignment the assigned key reads back the
assigned value. -/
theorem lookup_recordSet_self (m : List (String × String)) (k v : String) :
    (recordSet m k v).lookup k = some v := by
  induction m with
  | nil => simp [recordSet, List.lookup]
  | cons e rest ih =>
    obtain ⟨k0, v0⟩ := e
    by_cases hk : k0 = k
    · subst hk
      simp [recordSet, List.lookup]
    · have hbeq : (k == k0) = false := by
        simp only [beq_eq_false_iff_ne, ne_eq]
        exact fun h => hk h.symm
      simp only [recordSet, hk, if_false, List.lookup, hbeq]
      exact ih

/-- C9: each response parser is a total function from raw text to a
structured result — embedded with plain (non-`Except`) result types
because no operation in the source bodies can throw — and inputs
lacking the expected fields yield absent optional fields rather than an
error; every player record carries non-empty required fields, and its
optional field, when present, is non-empty. -/
theorem parsers_total_and_structured :
    (∀ response : String, (parsePlayerDataResponse response).raw = response) ∧
    parsePlayersResponse "" = [] ∧
    parsePlayerDataResponse "just some text" =
      { steamId := none, name := none, eosId := none, character := none,
        isAlive := none, mutations := none, isPrime := none, raw := "just some text" } ∧
    parseServerDetailsResponse "just some text" = [("raw", "just some text")] ∧
    (∀ response : String, ∀ p ∈ parsePlayersResponse response,
      p.steamId ≠ "" ∧ p.name ≠ "" ∧ ∀ e, p.eosId = some e → e ≠ "") := by
  refine ⟨parsePlayerDataResponse_raw, by decide, by decide, by decide, ?_⟩
  intro response p hp
  obtain ⟨i, hi, rfl⟩ := mem_parsePlayersResponse hp
  exact playersRecordValue_fields response i hi

/-- Witness for C9 at a concrete two-line players response. -/
theorem parsers_total_and_structured_witness :
    ({ steamId := "111", name := "A", eosId := none, raw := "111,A" } : ParsedPlayer).steamId
      ≠ "" :=
  (parsers_total_and_structured.2.2.2.2 "111,\nA,"
    { steamId := "111", name := "A", eosId := none, raw := "111,A" } (by decide)).1

/-- C8 counterexample: the claim says the key/value parsers take the
entire trimmed remainder after the first colon or equals sign as the
value, but on `name:Foo:Bar` the server-details parser stores only
`Foo` (the text between the first and second separator), and on
`name=Foo` the player-data parser assigns nothing at all (it only
splits at a colon). -/
theorem keyvalue_parsing_counterexample :
    (parseServerDetailsResponse "name:Foo:Bar").lookup "name" = some "Foo" ∧
    some ("Foo" : String) ≠ some ("Foo:Bar" : String) ∧
    (parsePlayerDataResponse "name=Foo").name = none :=
  ⟨by decide, by decide, by decide⟩

/-- C8 (amended): the player-data parser splits each line at the first
colon only (an equals sign is not a separator there) and takes the
entire trimmed remainder as the value; the server-details parser splits
the input on commas and newlines and each segment on every colon or
equals sign, keeping only the text between the first and second
separator as the value; both preserve the original input verbatim (the
`raw` key / field); and both example inputs parse through the
server-details parser to name/map pairs. -/
theorem keyvalue_parsing_amended :
    parseServerDetailsResponse "name:Foo,map:X" =
      [("name", "Foo"), ("map", "X"), ("raw", "name:Foo,map:X")] ∧
    parseServerDetailsResponse "name=Foo\nmap=X" =
      [("name", "Foo"), ("map", "X"), ("raw", "name=Foo\nmap=X")] ∧
    (∀ response : String, (parseServerDetailsResponse response).lookup "raw" = some response) ∧
    (∀ response : String, (parsePlayerDataResponse response).raw = response) ∧
    (parsePlayerDataResponse "name: Foo:Bar ").name = some "Foo:Bar" ∧
    (parsePlayerDataResponse "name=Foo").name = none ∧
    (parseServerDetailsResponse "name:Foo:Bar").lookup "name" = some "Foo" := by
  refine ⟨by decide, by decide, ?_, parsePlayerDataResponse_raw, by decide, by decide, by decide⟩
  intro response
  unfold parseServerDetailsResponse
  exact lookup_recordSet_self _ _ _

/-- Witness for C8 (amended): the raw input is retained verbatim. -/
theorem keyvalue_parsing_amended_witness :
    (parseServerDetailsResponse "abc").lookup "raw" = some "abc" :=
  keyvalue_parsing_amended.2.2.1 "abc"
